import Mathlib

/-!
Verification of the vocal-processor specification against the code of
`smooth_processor.py`.

Samples are embedded as rationals; the numpy arrays used by the code are
embedded as lists.  A 1-D numpy array becomes `AudioData.oneD`, a 2-D
array of shape (frames, channels) becomes `AudioData.twoD channels rows`
where each row is one frame.  Fallible numpy indexing (`a[:, j]`) is
embedded as an `Except`-valued column extraction that fails exactly when
numpy would raise `IndexError`.  The mutable state of the
`SmoothAudioProcessor` object is an explicit `ProcState` record and the
callbacks are state-passing functions on it.
-/

/-- Mutable state of a `SmoothAudioProcessor` instance: the three mix
parameters, the running flag, and the transfer queue of processed stereo
blocks (lines 16-24 of `smooth_processor.py`). -/
structure ProcState where
  center_attenuation : ℚ
  vocal_removal_mix : ℚ
  master_volume : ℚ
  is_running : Bool
  audio_queue : List (List (ℚ × ℚ))
  deriving DecidableEq

/-- State set up by `__init__` (lines 16-24): defaults 0.6 / 1.0 / 1.0,
not running, empty queue. -/
def initState : ProcState :=
  { center_attenuation := 0.6
    vocal_removal_mix := 1.0
    master_volume := 1.0
    is_running := false
    audio_queue := [] }

/-- An input audio block as `process_audio` receives it: either a 1-D
array of samples, or a 2-D array with an explicit channel count whose
rows are the frames. -/
inductive AudioData where
  | oneD (samples : List ℚ)
  | twoD (channels : ℕ) (rows : List (List ℚ))
  deriving DecidableEq

/-- All samples contained in a block. -/
def samplesOf : AudioData → List ℚ
  | .oneD samples => samples
  | .twoD _ rows => rows.flatten

/-- Embedding of `np.clip(x, -1.0, 1.0)` (line 69). -/
def clampQ (x : ℚ) : ℚ := min 1 (max (-1) x)

/-- Embedding of the numpy column read `a[:, j]` on a 2-D array with
`c` channels: raises `IndexError` iff `j` is out of bounds for axis 1,
otherwise yields sample `j` of every frame.  (The `getD` default is
never reached on well-formed rectangular data.) -/
def npCol (j c : ℕ) (rows : List (List ℚ)) : Except String (List ℚ) :=
  if j < c then .ok (rows.map fun r => r.getD j 0) else .error "IndexError"

/-- Embedding of `process_audio` (lines 44-74).  The result is the list
of output frames as (channel 0, channel 1) pairs; `.error` marks a
raised exception.
* Mono branch (lines 46-49): an input with fewer than 2 dimensions, or
  fewer than 2 channels, is duplicated to stereo unchanged.  Note the 2-D
  sub-case reads `audio_data[:, 0]`, which raises when there are 0
  channels.
* Stereo branch (lines 51-74): per frame, `vocal_removed =
  (L - R) * vocal_removal_mix`, `center = ((L + R) / 2) *
  center_attenuation`, `mixed = (vocal_removed + center) *
  master_volume`, clipped to [-1, 1], duplicated to both channels. -/
def process_audio (s : ProcState) (audio_data : AudioData) :
    Except String (List (ℚ × ℚ)) :=
  match audio_data with
  | .oneD samples => .ok (samples.map fun m => (m, m))
  | .twoD c rows =>
    if c < 2 then
      match npCol 0 c rows with
      | .error e => .error e
      | .ok mono => .ok (mono.map fun m => (m, m))
    else
      match npCol 0 c rows, npCol 1 c rows with
      | .error e, _ => .error e
      | .ok _, .error e => .error e
      | .ok left, .ok right =>
        .ok ((left.zip right).map fun lr =>
          let vocal_removed := (lr.1 - lr.2) * s.vocal_removal_mix
          let center := ((lr.1 + lr.2) / 2) * s.center_attenuation
          let mixed := (vocal_removed + center) * s.master_volume
          let clipped := clampQ mixed
          (clipped, clipped))

/-- Queue capacity: `queue.Queue(maxsize=20)` (line 24). -/
def maxsize : ℕ := 20

/-- Embedding of the guarded `put_nowait` of lines 86-89: append if below
capacity (`true`), otherwise the `queue.Full` exception is caught and the
block is dropped (`false`). -/
def put_nowait {β : Type} (q : List β) (b : β) : List β × Bool :=
  if q.length < maxsize then (q ++ [b], true) else (q, false)

/-- Embedding of `get_nowait` (line 101): `none` on an empty queue
(`queue.Empty`), otherwise the oldest block and the rest. -/
def get_nowait {β : Type} (q : List β) : Option (β × List β) :=
  match q with
  | [] => none
  | b :: rest => some (b, rest)

/-- Folding a sequence of pushes into the queue. -/
def pushAll {β : Type} (q : List β) (bs : List β) : List β :=
  bs.foldl (fun acc b => (put_nowait acc b).1) q

/-- Embedding of `input_callback` (lines 76-92): process the input block;
on success push the result (dropping it if the queue is full), on a raised
exception catch it and leave the state untouched. -/
def input_callback (s : ProcState) (indata : AudioData) : ProcState :=
  match process_audio s indata with
  | .ok processed => { s with audio_queue := (put_nowait s.audio_queue processed).1 }
  | .error _ => s

/-- Embedding of `output_callback` (lines 94-105) for a request of
`frames` output frames: pop the oldest block and write it, or fill the
output with zeros when the queue is empty. -/
def output_callback (s : ProcState) (frames : ℕ) :
    List (ℚ × ℚ) × ProcState :=
  match get_nowait s.audio_queue with
  | some (d, rest) => (d, { s with audio_queue := rest })
  | none => (List.replicate frames ((0 : ℚ), (0 : ℚ)), s)

/-- Embedding of one handled key press of `keyboard_listener`
(lines 130-158); `key` is the already lower-cased character. -/
def applyKey (s : ProcState) (key : Char) : ProcState :=
  if key = '1' then { s with center_attenuation := max 0 (s.center_attenuation - 0.05) }
  else if key = '2' then { s with center_attenuation := min 1 (s.center_attenuation + 0.05) }
  else if key = '3' then { s with vocal_removal_mix := max 0 (s.vocal_removal_mix - 0.1) }
  else if key = '4' then { s with vocal_removal_mix := min 1 (s.vocal_removal_mix + 0.1) }
  else if key = '5' then { s with master_volume := max 0 (s.master_volume - 0.05) }
  else if key = '6' then { s with master_volume := min 1.5 (s.master_volume + 0.05) }
  else if key = 'r' then
    { s with center_attenuation := 0.6, vocal_removal_mix := 1.0, master_volume := 1.0 }
  else if key = 'q' then { s with is_running := false }
  else s

/-- The documented ranges of the three mix parameters. -/
def paramsInRange (s : ProcState) : Prop :=
  0 ≤ s.center_attenuation ∧ s.center_attenuation ≤ 1 ∧
  0 ≤ s.vocal_removal_mix ∧ s.vocal_removal_mix ≤ 1 ∧
  0 ≤ s.master_volume ∧ s.master_volume ≤ 1.5

instance (s : ProcState) : Decidable (paramsInRange s) := by
  unfold paramsInRange; infer_instance

/-- Events of one `process_audio` call on the stereo branch, in source
order, used to state which operations happen while the parameter lock is
held. -/
inductive PAEvent where
  | readChannels    -- lines 52-53: extract left and right
  | acquireLock     -- line 55: `with self.param_lock:`
  | dspVocalRemoved -- line 57: (left - right) * vocal_removal_mix
  | dspCenter       -- line 60: ((left + right) / 2) * center_attenuation
  | dspMix          -- line 63: vocal_removed + center
  | dspVolume       -- line 66: mixed * master_volume
  | releaseLock     -- line 67: end of the `with` block
  | dspClip         -- line 69: np.clip(mixed, -1.0, 1.0)
  | makeStereo      -- line 72: np.column_stack([mixed, mixed])
  deriving DecidableEq

/-- The event trace of the stereo branch of `process_audio`
(lines 52-74), in the order the source performs them. -/
def process_audio_trace : List PAEvent :=
  [.readChannels, .acquireLock, .dspVocalRemoved, .dspCenter, .dspMix,
   .dspVolume, .releaseLock, .dspClip, .makeStereo]

/-- Whether an event is part of the per-frame DSP arithmetic. -/
def isDSP : PAEvent → Bool
  | .dspVocalRemoved => true
  | .dspCenter => true
  | .dspMix => true
  | .dspVolume => true
  | .dspClip => true
  | _ => false

/-- The events performed while the lock is held: those strictly between
`acquireLock` and `releaseLock`. -/
def heldSection (t : List PAEvent) : List PAEvent :=
  ((t.dropWhile (fun e => e ≠ .acquireLock)).drop 1).takeWhile
    (fun e => e ≠ .releaseLock)

/-- The events performed after the lock is released. -/
def afterRelease (t : List PAEvent) : List PAEvent :=
  (t.dropWhile (fun e => e ≠ .releaseLock)).drop 1

/-! ### Helper lemmas -/

theorem clampQ_bounds (x : ℚ) : -1 ≤ clampQ x ∧ clampQ x ≤ 1 :=
  ⟨le_min (by norm_num) (le_max_left _ _), min_le_left _ _⟩

theorem pushAll_eq_take {α : Type} (bs : List α) :
    ∀ q : List α, pushAll q bs = q ++ bs.take (maxsize - q.length) := by
  induction bs with
  | nil => intro q; simp [pushAll]
  | cons b bs ih =>
    intro q
    by_cases h : q.length < maxsize
    · have hstep : pushAll q (b :: bs) = pushAll (q ++ [b]) bs := by
        simp [pushAll, put_nowait, h]
      have hlen : maxsize - q.length = (maxsize - (q ++ [b]).length) + 1 := by
        simp only [List.length_append, List.length_cons, List.length_nil]
        omega
      rw [hstep, ih, hlen, List.take_succ_cons, List.append_assoc]
      rfl
    · have h0 : maxsize - q.length = 0 := by omega
      have hstep : pushAll q (b :: bs) = pushAll q bs := by
        simp [pushAll, put_nowait, h]
      rw [hstep, ih, h0]
      simp

theorem applyKey_preserves (s : ProcState) (k : Char) (h : paramsInRange s) :
    paramsInRange (applyKey s k) := by
  obtain ⟨h1, h2, h3, h4, h5, h6⟩ := h
  unfold applyKey
  split_ifs <;>
    refine ⟨?_, ?_, ?_, ?_, ?_, ?_⟩ <;>
    first
      | assumption
      | exact le_max_left _ _
      | exact max_le (by norm_num) (by linarith)
      | exact le_min (by norm_num) (by linarith)
      | exact min_le_left _ _
      | norm_num

/-! ### Claim theorems -/

/-- C1: on an input block with at least 2 channels, `process_audio`
returns a stereo block of the same frame count in which both channels of
every frame equal
`clamp(((L - R) * vocalRemovalMix + ((L + R) / 2) * centerAttenuation) * masterVolume, -1, 1)`
where `L`, `R` are the frame's channel-0 and channel-1 samples. -/
theorem process_audio_stereo_mix (s : ProcState) (c : ℕ) (rows : List (List ℚ))
    (hc : 2 ≤ c) :
    process_audio s (.twoD c rows) =
      .ok (rows.map fun r =>
        (clampQ (((r.getD 0 0 - r.getD 1 0) * s.vocal_removal_mix +
            ((r.getD 0 0 + r.getD 1 0) / 2) * s.center_attenuation) * s.master_volume),
         clampQ (((r.getD 0 0 - r.getD 1 0) * s.vocal_removal_mix +
            ((r.getD 0 0 + r.getD 1 0) / 2) * s.center_attenuation) * s.master_volume)))
    ∧ ∀ out, process_audio s (.twoD c rows) = .ok out → out.length = rows.length := by
  have h0 : 0 < c := by omega
  have h1 : 1 < c := by omega
  have h2 : ¬ c < 2 := by omega
  have hmain : process_audio s (.twoD c rows) =
      .ok (rows.map fun r =>
        (clampQ (((r.getD 0 0 - r.getD 1 0) * s.vocal_removal_mix +
            ((r.getD 0 0 + r.getD 1 0) / 2) * s.center_attenuation) * s.master_volume),
         clampQ (((r.getD 0 0 - r.getD 1 0) * s.vocal_removal_mix +
            ((r.getD 0 0 + r.getD 1 0) / 2) * s.center_attenuation) * s.master_volume))) := by
    simp only [process_audio, npCol, if_neg h2, if_pos h0, if_pos h1,
      List.zip_map', List.map_map]
    rfl
  refine ⟨hmain, ?_⟩
  intro out hout
  rw [hmain] at hout
  cases hout
  simp

/-- C1 witness: the spec's own worked example, L = 0.8, R = 0.3,
vocalRemovalMix = 1, centerAttenuation = 0, masterVolume = 1 gives 0.5 on
both channels. -/
theorem process_audio_stereo_mix_witness :
    (2 ≤ 2) ∧
    process_audio ⟨0, 1, 1, true, []⟩ (.twoD 2 [[0.8, 0.3]]) = .ok [(0.5, 0.5)] := by
  refine ⟨le_refl 2, ?_⟩
  rw [(process_audio_stereo_mix ⟨0, 1, 1, true, []⟩ 2 [[0.8, 0.3]] (le_refl 2)).1]
  norm_num [clampQ]

/-- C2 counterexample: a 2-D block with 0 channels has fewer than 2
channels, yet `process_audio` raises `IndexError` on `audio_data[:, 0]`
(line 48) instead of returning a pass-through stereo block. -/
theorem process_audio_zero_channel_raises :
    process_audio initState (.twoD 0 [[]]) = .error "IndexError"
    ∧ (process_audio initState (.twoD 0 [[]])).isOk = false :=
  ⟨rfl, rfl⟩

/-- C2 amended: on a 1-D input block, or a 2-D input block with exactly
one channel, `process_audio` returns a stereo block of the same frame
count whose two channels are both identical to the mono input, with none
of the mix parameters applied (the result does not depend on any
parameter field). -/
theorem process_audio_mono_passthrough (s : ProcState) (samples : List ℚ)
    (rows : List (List ℚ)) :
    process_audio s (.oneD samples) = .ok (samples.map fun m => (m, m))
    ∧ process_audio s (.twoD 1 rows) = .ok (rows.map fun r => (r.getD 0 0, r.getD 0 0))
    ∧ (samples.map fun m => (m, m)).length = samples.length
    ∧ (rows.map fun r => (r.getD 0 0, r.getD 0 0)).length = rows.length := by
  refine ⟨rfl, ?_, by simp, by simp⟩
  simp only [process_audio, npCol]
  norm_num

/-- C3 counterexample: `initState` is in range, but the mono branch of
`process_audio` passes samples through without clamping, so the
out-of-range mono sample 2 yields the out-of-range output sample 2. -/
theorem process_audio_limiter_counterexample :
    paramsInRange initState
    ∧ process_audio initState (.oneD [2]) = .ok [(2, 2)]
    ∧ ¬ ((2 : ℚ) ≤ 1) := by
  refine ⟨?_, rfl, by norm_num⟩
  refine ⟨by norm_num [initState], by norm_num [initState], by norm_num [initState],
    by norm_num [initState], by norm_num [initState], by norm_num [initState]⟩

/-- C3 amended: for in-range parameters and an input block all of whose
samples lie in [-1, 1], every sample of a successfully returned block
lies in [-1, 1]; and the boundary case L = 1, R = -1,
vocalRemovalMix = 1, centerAttenuation = 0, masterVolume = 1 yields
exactly 1 on both channels (hard clip). -/
theorem process_audio_limiter (s : ProcState) (a : AudioData)
    (hp : paramsInRange s) (ha : ∀ x ∈ samplesOf a, -1 ≤ x ∧ x ≤ 1)
    (out : List (ℚ × ℚ)) (hout : process_audio s a = .ok out) :
    (∀ fr ∈ out, (-1 ≤ fr.1 ∧ fr.1 ≤ 1) ∧ (-1 ≤ fr.2 ∧ fr.2 ≤ 1))
    ∧ process_audio ⟨0, 1, 1, true, []⟩ (.twoD 2 [[1, -1]]) = .ok [(1, 1)] := by
  constructor
  · intro fr hfr
    match a with
    | .oneD samples =>
      simp only [process_audio, Except.ok.injEq] at hout
      subst hout
      obtain ⟨m, hm, rfl⟩ := List.mem_map.mp hfr
      have := ha m hm
      exact ⟨⟨this.1, this.2⟩, ⟨this.1, this.2⟩⟩
    | .twoD c rows =>
      by_cases hc : c < 2
      · by_cases hc0 : 0 < c
        · simp only [process_audio, npCol, if_pos hc, if_pos hc0,
            Except.ok.injEq, List.map_map] at hout
          subst hout
          obtain ⟨r, hr, rfl⟩ := List.mem_map.mp hfr
          have hbound : -1 ≤ r.getD 0 0 ∧ r.getD 0 0 ≤ 1 := by
            match r with
            | [] => norm_num
            | x :: t =>
              exact ha x (List.mem_flatten.mpr ⟨x :: t, hr, List.mem_cons_self x t⟩)
          exact ⟨⟨hbound.1, hbound.2⟩, ⟨hbound.1, hbound.2⟩⟩
        · have hc0' : c = 0 := by omega
          subst hc0'
          simp only [process_audio, npCol] at hout
          exact Except.noConfusion hout
      · have h0 : 0 < c := by omega
        have h1 : 1 < c := by omega
        simp only [process_audio, npCol, if_neg hc, if_pos h0, if_pos h1,
          List.zip_map', List.map_map, Except.ok.injEq] at hout
        subst hout
        obtain ⟨r, hr, rfl⟩ := List.mem_map.mp hfr
        simp only [Function.comp_apply]
        exact ⟨clampQ_bounds _, clampQ_bounds _⟩
  · norm_num [process_audio, npCol, clampQ]

/-- C3 witness: the amended limiter theorem applied at `initState` and
the in-range mono block [0.5]. -/
theorem process_audio_limiter_witness :
    paramsInRange initState
    ∧ (∀ x ∈ samplesOf (.oneD [(0.5 : ℚ)]), -1 ≤ x ∧ x ≤ 1)
    ∧ (∀ fr ∈ [((0.5 : ℚ), (0.5 : ℚ))], (-1 ≤ fr.1 ∧ fr.1 ≤ 1) ∧ (-1 ≤ fr.2 ∧ fr.2 ≤ 1)) := by
  refine ⟨by norm_num [paramsInRange, initState], by norm_num [samplesOf], ?_⟩
  exact (process_audio_limiter initState (.oneD [0.5])
    (by norm_num [paramsInRange, initState]) (by norm_num [samplesOf])
    [(0.5, 0.5)] rfl).1

/-- C4: pushing into the transfer queue when it already holds `maxsize`
blocks discards the new block and returns `false` (no exception escapes:
`queue.Full` is caught on lines 88-89), and any sequence of
`maxsize + 1` pushes starting from the empty queue leaves exactly the
first `maxsize` pushed blocks, in order (drop-newest). -/
theorem transfer_buffer_drop_newest {α : Type} (bs : List α) (b : α)
    (h : bs.length = maxsize) :
    put_nowait bs b = (bs, false)
    ∧ pushAll [] (bs ++ [b]) = bs
    ∧ (pushAll [] (bs ++ [b])).length = maxsize := by
  have hfull : ¬ bs.length < maxsize := by omega
  have hpush : pushAll ([] : List α) (bs ++ [b]) = bs := by
    rw [pushAll_eq_take]
    simp only [List.length_nil, Nat.sub_zero, List.nil_append]
    rw [← h, List.take_left]
  exact ⟨by simp [put_nowait, hfull], hpush, by rw [hpush, h]⟩

/-- C4 witness: the drop-newest theorem applied to the 21-push sequence
`0, 1, ..., 19, 99`. -/
theorem transfer_buffer_drop_newest_witness :
    (List.range maxsize).length = maxsize
    ∧ pushAll [] (List.range maxsize ++ [99]) = List.range maxsize :=
  ⟨List.length_range maxsize,
   (transfer_buffer_drop_newest (List.range maxsize) 99 (List.length_range maxsize)).2.1⟩

/-- C5: when the transfer queue is empty, `get_nowait` returns no data,
and `output_callback` fills the whole requested output with zeros and
leaves the queue empty, so every further call behaves the same until a
push occurs; the embedding is a total function, so the callback never
blocks. -/
theorem output_callback_silence_on_empty (s : ProcState) (n : ℕ)
    (h : s.audio_queue = []) :
    get_nowait s.audio_queue = none
    ∧ output_callback s n = (List.replicate n ((0 : ℚ), (0 : ℚ)), s)
    ∧ (output_callback s n).2.audio_queue = []
    ∧ ∀ fr ∈ (output_callback s n).1, fr = ((0 : ℚ), (0 : ℚ)) := by
  have hget : get_nowait s.audio_queue = none := by rw [h]; rfl
  have hout : output_callback s n = (List.replicate n ((0 : ℚ), (0 : ℚ)), s) := by
    simp [output_callback, hget]
  refine ⟨hget, hout, by rw [hout, h], ?_⟩
  rw [hout]
  intro fr hfr
  exact List.eq_of_mem_replicate hfr

/-- C5 witness: the silence theorem applied at the freshly initialised
state (empty queue) with a 3-frame request. -/
theorem output_callback_silence_on_empty_witness :
    initState.audio_queue = []
    ∧ output_callback initState 3 = (List.replicate 3 ((0 : ℚ), (0 : ℚ)), initState) :=
  ⟨rfl, (output_callback_silence_on_empty initState 3 rfl).2.1⟩

/-- C6: every sequence of key presses handled by `keyboard_listener`
keeps all three mix parameters inside their closed ranges
(centerAttenuation, vocalRemovalMix in [0, 1], masterVolume in
[0, 1.5]), starting from any in-range state: each adjustment clamps
with max/min rather than rejecting. -/
theorem keyboard_params_invariant (s : ProcState) (keys : List Char)
    (h : paramsInRange s) : paramsInRange (keys.foldl applyKey s) := by
  induction keys generalizing s with
  | nil => exact h
  | cons k ks ih => exact ih _ (applyKey_preserves s k h)

/-- C6 witness: the invariant theorem applied at `initState` and a
concrete burst of key presses. -/
theorem keyboard_params_invariant_witness :
    paramsInRange initState
    ∧ paramsInRange (List.foldl applyKey initState ['2', '6', '6', '4', 'r', '1', '3', '5']) :=
  ⟨by norm_num [paramsInRange, initState],
   keyboard_params_invariant initState ['2', '6', '6', '4', 'r', '1', '3', '5']
     (by norm_num [paramsInRange, initState])⟩

/-- C7 counterexample: the per-frame DSP arithmetic of `process_audio`
(already its first step, `(left - right) * vocal_removal_mix`, line 57)
is performed inside the `with self.param_lock:` block, so the lock is
held across the DSP math, contrary to the claim. -/
theorem lock_held_across_dsp :
    PAEvent.dspVocalRemoved ∈ heldSection process_audio_trace
    ∧ isDSP .dspVocalRemoved = true := by decide

/-- C7 amended: `process_audio` holds the parameter lock across both the
parameter reads and the per-frame mix arithmetic (vocal-removal, center,
sum, master-volume steps, lines 57-66), releasing it only before the
final clamp and the stereo duplication, which run outside the lock. -/
theorem lock_section_contents :
    heldSection process_audio_trace =
      [.dspVocalRemoved, .dspCenter, .dspMix, .dspVolume]
    ∧ afterRelease process_audio_trace = [.dspClip, .makeStereo] := by decide

/-- C8: when processing an input block raises (e.g. the zero-channel
malformed shape), `input_callback` catches the exception — the embedding
is total and returns a state instead of an error — pushes nothing, and
leaves the whole state, in particular the transfer queue, unchanged. -/
theorem input_callback_catches_errors (s : ProcState) (a : AudioData)
    (e : String) (h : process_audio s a = .error e) :
    input_callback s a = s ∧ (input_callback s a).audio_queue = s.audio_queue := by
  have : input_callback s a = s := by
    unfold input_callback
    rw [h]
  exact ⟨this, by rw [this]⟩

/-- C8 witness: the catch theorem applied to the zero-channel block, on
which `process_audio` raises `IndexError`. -/
theorem input_callback_catches_errors_witness :
    process_audio initState (.twoD 0 [[]]) = .error "IndexError"
    ∧ input_callback initState (.twoD 0 [[]]) = initState :=
  ⟨rfl, (input_callback_catches_errors initState (.twoD 0 [[]]) "IndexError" rfl).1⟩

/-- C9: the reset key restores the three mix parameters to exactly
centerAttenuation = 0.6, vocalRemovalMix = 1.0, masterVolume = 1.0,
from any prior state. -/
theorem reset_restores_defaults (s : ProcState) :
    (applyKey s 'r').center_attenuation = 0.6
    ∧ (applyKey s 'r').vocal_removal_mix = 1.0
    ∧ (applyKey s 'r').master_volume = 1.0 :=
  ⟨rfl, rfl, rfl⟩

/-- C10: frame conditions of `keyboard_listener`: no key touches the
transfer queue; only 'q' changes `is_running`; 'q' changes no mix
parameter; '1'/'2' leave vocalRemovalMix and masterVolume unchanged;
'3'/'4' leave centerAttenuation and masterVolume unchanged; '5'/'6'
leave centerAttenuation and vocalRemovalMix unchanged; an unrecognized
key changes nothing at all. -/
theorem applyKey_frame_conditions (s : ProcState) (k : Char) :
    (applyKey s k).audio_queue = s.audio_queue
    ∧ (k ≠ 'q' → (applyKey s k).is_running = s.is_running)
    ∧ (k = 'q' → (applyKey s k).center_attenuation = s.center_attenuation
        ∧ (applyKey s k).vocal_removal_mix = s.vocal_removal_mix
        ∧ (applyKey s k).master_volume = s.master_volume)
    ∧ ((k = '1' ∨ k = '2') → (applyKey s k).vocal_removal_mix = s.vocal_removal_mix
        ∧ (applyKey s k).master_volume = s.master_volume)
    ∧ ((k = '3' ∨ k = '4') → (applyKey s k).center_attenuation = s.center_attenuation
        ∧ (applyKey s k).master_volume = s.master_volume)
    ∧ ((k = '5' ∨ k = '6') → (applyKey s k).center_attenuation = s.center_attenuation
        ∧ (applyKey s k).vocal_removal_mix = s.vocal_removal_mix)
    ∧ (k ∉ (['1', '2', '3', '4', '5', '6', 'r', 'q'] : List Char) → applyKey s k = s) := by
  refine ⟨?_, ?_, ?_, ?_, ?_, ?_, ?_⟩
  · unfold applyKey
    split_ifs <;> rfl
  · intro hq
    unfold applyKey
    split_ifs <;> rfl
  · intro hq
    subst hq
    exact ⟨rfl, rfl, rfl⟩
  · intro h
    rcases h with h | h <;> subst h <;> exact ⟨rfl, rfl⟩
  · intro h
    rcases h with h | h <;> subst h <;> exact ⟨rfl, rfl⟩
  · intro h
    rcases h with h | h <;> subst h <;> exact ⟨rfl, rfl⟩
  · intro hmem
    unfold applyKey
    split_ifs with h1 h2 h3 h4 h5 h6 h7 h8
    · exact (hmem (by rw [h1]; decide)).elim
    · exact (hmem (by rw [h2]; decide)).elim
    · exact (hmem (by rw [h3]; decide)).elim
    · exact (hmem (by rw [h4]; decide)).elim
    · exact (hmem (by rw [h5]; decide)).elim
    · exact (hmem (by rw [h6]; decide)).elim
    · exact (hmem (by rw [h7]; decide)).elim
    · exact (hmem (by rw [h8]; decide)).elim
    · rfl

/-- C10 witness: the frame-condition theorem applied at `initState` with
the unrecognized key 'x' and with '1'. -/
theorem applyKey_frame_conditions_witness :
    applyKey initState 'x' = initState
    ∧ (applyKey initState '1').is_running = initState.is_running :=
  ⟨(applyKey_frame_conditions initState 'x').2.2.2.2.2.2 (by decide),
   (applyKey_frame_conditions initState '1').2.1 (by decide)⟩
